import Mathlib

/-!
Shallow embedding of `main.go` from davidkastanek/network-checks.

Modelling conventions:
* `time.Duration` is Go's int64 nanosecond count; it is modelled as `Int`
  (overflow is irrelevant at the magnitudes the program handles).
  Go's `/` on integers truncates toward zero, which is `Int.tdiv`.
* `time.Time` values are modelled as `Int` timestamps; only the elapsed
  duration `time.Since(runAt)` matters, and it is passed in as an oracle
  input, since the wall clock is an external effect.
* Network and process effects (`http.Get`, running `ping`) are oracle
  inputs to the probe functions: the transport result, the status code,
  the ping process exit status and its captured stdout.
* Channels and goroutines: the collector loop of `main` (lines 292-315)
  is modelled as a sequential state machine processing a trace, the list
  of `CheckResult` values received on the channel, in delivery order.
-/

namespace NetworkChecks

/-- `Check` struct (main.go lines 18-24): one configured endpoint. -/
structure Check where
  name : String
  checkType : String
  dest : String
  repeatInterval : Int
  id : Nat
  deriving Repr, DecidableEq

/-- `CheckResult` struct (main.go lines 46-52): one probe outcome.
`runAt` is an abstract timestamp, `duration` is in nanoseconds,
`execCount` starts at the Go zero value 0. -/
structure CheckResult where
  check : Check
  status : Bool
  runAt : Int
  duration : Int
  execCount : Nat
  deriving Repr, DecidableEq

/-- `CheckResultStat` struct (main.go lines 54-58): the three rolling
windows of one endpoint, each stored most-recent-first. -/
structure CheckResultStat where
  last10Durations : List Int
  last100Durations : List Int
  last50Statuses : List Bool
  deriving Repr, DecidableEq

/-- `runHttpCheck` (main.go lines 60-78). The transport outcome of
`http.Get` is the oracle `result`: `.error e` models `err != nil`
(in which case Go never reads `resp`), `.ok code` models a response
with that status code. `duration := time.Since(runAt)` is the oracle
`elapsed`. Lines 71-75: status is true iff no error and code = 200. -/
def runHttpCheck (check : Check) (result : Except String Int)
    (runAt elapsed : Int) : CheckResult :=
  let checkResult : CheckResult :=
    { check := check, status := false, runAt := runAt,
      duration := elapsed, execCount := 0 }
  match result with
  | .error _ => { checkResult with status := false }
  | .ok code =>
      if code ≠ 200 then { checkResult with status := false }
      else { checkResult with status := true }

/-- `averageDuration` (main.go lines 177-186). The `for` loop sums the
slice; Go `/` on `time.Duration` (int64) truncates toward zero. -/
def averageDuration (durations : List Int) : Int :=
  if durations.length = 0 then 0
  else
    let total := durations.foldl (· + ·) 0
    Int.tdiv total (Int.ofNat durations.length)

/-- Whether the first list starts with the second. -/
def listStartsWith : List Char → List Char → Bool
  | _, [] => true
  | [], _ :: _ => false
  | a :: as, b :: bs => a == b && listStartsWith as bs

/-- Character-level worker for `strings.Split`, fuel-structural so that
it reduces in the kernel; `fuel ≥ length s` suffices. -/
def splitCharsAux (sep : List Char) : Nat → List Char → List Char → List (List Char)
  | 0, _, acc => [acc.reverse]
  | _ + 1, [], acc => [acc.reverse]
  | fuel + 1, c :: rest, acc =>
      if sep ≠ [] && listStartsWith (c :: rest) sep then
        acc.reverse :: splitCharsAux sep fuel ((c :: rest).drop sep.length) []
      else
        splitCharsAux sep fuel rest (c :: acc)

/-- `strings.Split(s, sep)` for the non-empty separators this program
uses ("=", "/", ".", "\n", "ms", "Average =", "round-trip"): the
maximal list of parts whose `sep`-interleaved concatenation is `s`.
(Go's special case for an empty separator is not modelled.) -/
def goSplit (s sep : String) : List String :=
  (splitCharsAux sep.data (s.data.length + 1) s.data []).map String.mk

/-- `strings.Contains(s, sub)` for non-empty `sub`: `s` contains `sub`
iff splitting on it yields more than one part. -/
def goContains (s sub : String) : Bool :=
  (goSplit s sub).length != 1

/-- Character-level worker for `strings.Fields`: whitespace-separated
maximal runs of non-whitespace characters. -/
def fieldsAux : List Char → List Char → List (List Char)
  | [], acc => if acc.isEmpty then [] else [acc.reverse]
  | c :: rest, acc =>
      if c.isWhitespace then
        if acc.isEmpty then fieldsAux rest [] else acc.reverse :: fieldsAux rest []
      else fieldsAux rest (c :: acc)

/-- `strings.Fields`: split on whitespace, dropping empty fields. -/
def goFields (s : String) : List String :=
  (fieldsAux s.data []).map String.mk

/-- `strings.TrimSpace`: drop leading and trailing whitespace. -/
def goTrimSpace (s : String) : String :=
  String.mk (((s.data.dropWhile Char.isWhitespace).reverse.dropWhile
    Char.isWhitespace).reverse)

/-- `strings.Replace(s, pat, rep, 1)`: replace the first occurrence. -/
def replaceFirst (s pat rep : String) : String :=
  match goSplit s pat with
  | [] => s
  | [only] => only
  | first :: second :: rest => first ++ rep ++ String.intercalate pat (second :: rest)

/-- One line of `bufio.Scanner` post-processing: `ScanLines` strips a
trailing carriage return from each line. -/
def dropTrailingCR (s : String) : String :=
  if s.data.getLast? = some '\r' then String.mk s.data.dropLast else s

/-- `bufio.Scanner` over a string with the default `ScanLines` split:
the newline-separated lines, without terminators, with no final empty
token when the input ends in a newline (or is empty). -/
def scanLines (output : String) : List String :=
  let parts := goSplit output "\n"
  let parts := if parts.getLast? = some "" then parts.dropLast else parts
  parts.map dropTrailingCR

/-- The value of a list of decimal digit characters. -/
def digitsVal (l : List Char) : Nat :=
  l.foldl (fun n c => n * 10 + (c.toNat - 48)) 0

/-- `strconv.Atoi`: optional sign followed by a non-empty run of digits.
(The int64 range check on overflow is not modelled; ping averages are
tiny.) -/
def parseGoInt (s : String) : Option Int :=
  let signAndDigits : Int × List Char :=
    match s.data with
    | '-' :: r => (-1, r)
    | '+' :: r => (1, r)
    | r => (1, r)
  let sign := signAndDigits.1
  let digits := signAndDigits.2
  if digits.isEmpty then none
  else if digits.all Char.isDigit then some (sign * Int.ofNat (digitsVal digits))
  else none

/-- Models `strconv.ParseFloat(s, 64)` followed by
`time.Duration(rtt*1e6) * time.Nanosecond` (main.go lines 141-145):
parses a decimal millisecond value and converts it to nanoseconds,
truncating toward zero as Go's float-to-integer conversion does. The
arithmetic is exact over Int; float64 rounding, exponent notation and
inf/nan inputs (which never occur in ping output) are not modelled. -/
def parseDecimalMsToNs (s : String) : Option Int :=
  let signAndBody : Int × List Char :=
    match s.data with
    | '-' :: r => (-1, r)
    | '+' :: r => (1, r)
    | r => (1, r)
  let sign := signAndBody.1
  let body := String.mk signAndBody.2
  match goSplit body "." with
  | [intPart] =>
      if intPart.data.isEmpty then none
      else if intPart.data.all Char.isDigit then
        some (sign * Int.ofNat (digitsVal intPart.data * 1000000))
      else none
  | [intPart, fracPart] =>
      if intPart.data.isEmpty && fracPart.data.isEmpty then none
      else if intPart.data.all Char.isDigit && fracPart.data.all Char.isDigit then
        let frac6 := (fracPart.data.take 6) ++ List.replicate (6 - fracPart.data.length) '0'
        some (sign * Int.ofNat (digitsVal intPart.data * 1000000 + digitsVal frac6))
      else none
  | _ => none

/-- Result of `parsePingOutput`: the returned `(time.Duration, error)`
pair, plus the runtime panic that `strings.Split(metrics[0], "/")[1]`
raises when `metrics[0]` contains no slash. -/
inductive PingParse where
  | ok (rtt : Int)
  | err (msg : String)
  | crash
  deriving Repr, DecidableEq

/-- The scan loop of `parsePingOutput` (main.go lines 124-162), one line
at a time; falling off the end is line 163. -/
def parsePingLines (goos : String) : List String → PingParse
  | [] => .err "RTT not found in output"
  | line :: rest =>
    if (goos != "windows") && goContains line "round-trip" then
      let parts := goSplit line "="
      if parts.length < 2 then parsePingLines goos rest
      else
        let metrics := goFields (parts.getD 1 "")
        if metrics.length < 1 then parsePingLines goos rest
        else
          let segs := goSplit (metrics.getD 0 "") "/"
          if segs.length < 2 then .crash
          else
            let avgRTTStr := segs.getD 1 ""
            if avgRTTStr = "" then parsePingLines goos rest
            else
              match parseDecimalMsToNs avgRTTStr with
              | none => .err "error parsing RTT"
              | some rtt => .ok rtt
    else if (goos == "windows") && goContains line "Average =" then
      let parts := goSplit line "Average ="
      if parts.length < 2 then parsePingLines goos rest
      else
        let rttStr := replaceFirst (goTrimSpace (parts.getD 1 "")) "ms" ""
        match parseGoInt rttStr with
        | none => .err "error parsing Windows RTT"
        | some rtt => .ok (rtt * 1000000)
    else parsePingLines goos rest

/-- `parsePingOutput` (main.go lines 122-164), parameterized by
`runtime.GOOS`. -/
def parsePingOutput (goos output : String) : PingParse :=
  parsePingLines goos (scanLines output)

/-- `runIcmpCheck` (main.go lines 80-120). The external `ping` process
is the oracle pair `cmdErr` (the `cmd.Run()` error) and `pingOutput`
(captured stdout); `elapsed` is `time.Since(runAt)`. The struct literal
of lines 100-103 sets only `check` and `runAt`, so `duration` starts at
the Go zero value 0. On a parse panic (`PingParse.crash`) no result is
ever sent on the channel, modelled as `none`. -/
def runIcmpCheck (goos : String) (check : Check) (cmdErr : Option String)
    (pingOutput : String) (runAt elapsed : Int) : Option CheckResult :=
  let checkResult : CheckResult :=
    { check := check, status := false, runAt := runAt,
      duration := 0, execCount := 0 }
  match cmdErr with
  | none =>
      match parsePingOutput goos pingOutput with
      | .ok rtt => some { checkResult with duration := rtt, status := true }
      | .err _ => some { checkResult with status := false }
      | .crash => none
  | some _ => some { checkResult with status := false, duration := elapsed }

/-- Right-justified space padding, as in `fmt.Sprintf` width flags. -/
def goPadLeft (s : String) (width : Nat) : String :=
  if s.length < width then String.mk (List.replicate (width - s.length) ' ') ++ s
  else s

/-- `time.Duration.Milliseconds()`: integer division by 10^6,
truncating toward zero. -/
def goMilliseconds (d : Int) : Int := Int.tdiv d 1000000

/-- Division rounding to nearest, halves away from zero (`den > 0`). -/
def roundHalfAwayDiv (num den : Int) : Int :=
  if num ≥ 0 then Int.tdiv (num * 2 + den) (den * 2)
  else -(Int.tdiv (-num * 2 + den) (den * 2))

/-- Two-digit zero-padded rendering of `n < 100`. -/
def goPadZero2 (n : Nat) : String :=
  if n < 10 then "0" ++ toString n else toString n

/-- Models `fmt.Sprintf("%5.2f", d.Seconds())`: seconds rendered with
two decimal places, right-justified to width 5. Computed exactly over
Int; Go computes via float64, which can differ in the last digit only
for values within one float ulp of a `.xx5` rounding boundary. -/
def goFormatSeconds (d : Int) : String :=
  let hundredths := roundHalfAwayDiv (d * 100) 1000000000
  let sign := if hundredths < 0 then "-" else ""
  let a := hundredths.natAbs
  goPadLeft (sign ++ toString (a / 100) ++ "." ++ goPadZero2 (a % 100)) 5

/-- `formatDuration` (main.go lines 166-175): integer milliseconds
(width 4) under one second, else seconds with two decimals (width 5). -/
def formatDuration (d : Int) : String :=
  if d < 1000000000 then
    goPadLeft (toString (goMilliseconds d)) 4 ++ "ms"
  else
    goFormatSeconds d ++ "s"

/-- The dynamic values that reach the `interface{}`-typed `slice`
parameter of `prependSlice`/`limitSlice`: a `[]time.Duration`, a
`[]bool`, or a slice of any other type (the type switch's fallthrough). -/
inductive SliceVal where
  | durations (l : List Int)
  | bools (l : List Bool)
  | otherSlice
  deriving Repr, DecidableEq

/-- The dynamic values that reach the `interface{}`-typed `element`
parameter of `prependSlice`. -/
inductive ElemVal where
  | durationElem (d : Int)
  | boolElem (b : Bool)
  | otherElem
  deriving Repr, DecidableEq

/-- `prependSlice` (main.go lines 188-200): type-switch on the slice,
type-assert the element; `append([]T{e}, s...)` puts the element at the
front; every mismatch falls through to `return slice`. -/
def prependSlice (element : ElemVal) (slice : SliceVal) : SliceVal :=
  match slice with
  | .durations s =>
      match element with
      | .durationElem e => .durations (e :: s)
      | _ => slice
  | .bools s =>
      match element with
      | .boolElem e => .bools (e :: s)
      | _ => slice
  | .otherSlice => slice

/-- Whether the element's dynamic type matches the slice's element type,
i.e. whether `prependSlice` reaches one of its two `append` branches. -/
def elemMatchesSlice : ElemVal → SliceVal → Bool
  | .durationElem _, .durations _ => true
  | .boolElem _, .bools _ => true
  | _, _ => false

/-- `limitSlice` (main.go lines 202-217): truncate to the first
`maxLength` entries when over the cap; the `default` branch returns the
slice unchanged. (`maxLength` is a Go `int`; the program only passes the
positive literals 10, 100 and 50, so `Nat` is faithful.) -/
def limitSlice (slice : SliceVal) (maxLength : Nat) : SliceVal :=
  match slice with
  | .durations s => if s.length > maxLength then .durations (s.take maxLength) else slice
  | .bools s => if s.length > maxLength then .bools (s.take maxLength) else slice
  | .otherSlice => slice

/-- The `.([]time.Duration)` type assertion in main.go lines 297-298.
A failed Go assertion panics; the `[]` default is unreachable on the
values `main` actually builds (the stored slices are duration slices). -/
def asDurations : SliceVal → List Int
  | .durations l => l
  | _ => []

/-- The `.([]bool)` type assertion in main.go line 299. -/
def asBools : SliceVal → List Bool
  | .bools l => l
  | _ => []

/-- Lines 297-299 of `main`: push one outcome's duration and status into
an endpoint's three rolling windows via `prependSlice` then `limitSlice`. -/
def recordStat (stat : CheckResultStat) (duration : Int) (status : Bool) :
    CheckResultStat :=
  { last10Durations :=
      asDurations (limitSlice
        (prependSlice (.durationElem duration) (.durations stat.last10Durations)) 10),
    last100Durations :=
      asDurations (limitSlice
        (prependSlice (.durationElem duration) (.durations stat.last100Durations)) 100),
    last50Statuses :=
      asBools (limitSlice
        (prependSlice (.boolElem status) (.bools stat.last50Statuses)) 50) }

/-- `displayResults` (main.go lines 219-267), reduced to what the caller
and the guard observe. The terminal writes are oracle inputs: `rowErrs`
holds, for each endpoint row in order, the error (if any) of that row's
`Printf` (line 249). Line 220 sets `*drawLock = true` on entry; the
first failing row sets it true again and returns the error (lines
260-263); completing the loop clears it and returns nil (lines 265-266).
The result is `(returned error, final drawLock value)`. -/
def displayResults : List (Option String) → Option String × Bool
  | [] => (none, false)
  | some e :: _ => (some e, true)
  | none :: rest => displayResults rest

/-- The Go zero value of `CheckResult`, as produced by
`make([]CheckResult, n)` (main.go line 277). -/
def defaultCheckResult : CheckResult :=
  { check := { name := "", checkType := "", dest := "", repeatInterval := 0, id := 0 },
    status := false, runAt := 0, duration := 0, execCount := 0 }

/-- The Go zero value of `CheckResultStat` (main.go line 278): nil
slices, i.e. empty windows. -/
def emptyStat : CheckResultStat :=
  { last10Durations := [], last100Durations := [], last50Statuses := [] }

/-- The collector's shared state (main.go lines 277-279): the
per-endpoint result and stat arrays, and the render-guard flag. -/
structure CollectorState where
  checkResults : List CheckResult
  checkResultStats : List CheckResultStat
  drawLock : Bool
  deriving Repr, DecidableEq

/-- The state at startup: `n` zero-valued slots, guard clear. -/
def initialState (n : Nat) : CollectorState :=
  { checkResults := List.replicate n defaultCheckResult,
    checkResultStats := List.replicate n emptyStat,
    drawLock := false }

/-- One iteration of the collector goroutine body (main.go lines
293-303) for a received `cR`: bump the execution counter from the stored
slot, store the outcome, record the stats (lines 294-299), and — only
when the guard is clear — run a render pass (lines 301-303), whose
per-row write results are the oracle `rowErrs`. `displayResults`'s
returned error is discarded by `main`, but the guard keeps the value the
pass left in it. Returns the new state, whether a render pass ran, and
the render pass's error. (The re-scheduling tail of the goroutine, lines
305-313, only emits future channel traffic, which the trace already
represents.) -/
def collectStep (s : CollectorState) (cR : CheckResult)
    (rowErrs : List (Option String)) : CollectorState × Bool × Option String :=
  let id := cR.check.id
  let prev := (s.checkResults.getD id defaultCheckResult).execCount
  let checkResult := { cR with execCount := prev + 1 }
  let results := s.checkResults.set id checkResult
  let stats := s.checkResultStats.set id
    (recordStat (s.checkResultStats.getD id emptyStat) checkResult.duration checkResult.status)
  if s.drawLock = false then
    let r := displayResults rowErrs
    ({ checkResults := results, checkResultStats := stats, drawLock := r.2 }, true, r.1)
  else
    ({ checkResults := results, checkResultStats := stats, drawLock := s.drawLock }, false, none)

/-- Fold `collectStep` over a delivery trace: each entry is a received
outcome together with that iteration's render-pass row-write oracle. -/
def processTrace (s : CollectorState) :
    List (CheckResult × List (Option String)) → CollectorState
  | [] => s
  | e :: rest => processTrace (collectStep s e.1 e.2).1 rest

/-- Like `processTrace`, but keeping every intermediate observation:
the state after each step, whether that step rendered, and its render
error. -/
def runTrace (s : CollectorState) :
    List (CheckResult × List (Option String)) →
    List (CollectorState × Bool × Option String)
  | [] => []
  | e :: rest =>
      let step := collectStep s e.1 e.2
      step :: runTrace step.1 rest

/-- What the dispatch loop of `main` (lines 281-290) does with one
configured check: the `switch` starts an HTTP or ICMP probe goroutine,
and its `default` arm prints "Unknown check type" with no goroutine. -/
inductive LaunchAction where
  | startHttp (check : Check)
  | startIcmp (check : Check)
  | reportUnknown (checkType : String)
  deriving Repr, DecidableEq

/-- The `switch check.CheckType` of main.go lines 282-289. -/
def dispatchCheck (check : Check) : LaunchAction :=
  if check.checkType = "http" then .startHttp check
  else if check.checkType = "icmp" then .startIcmp check
  else .reportUnknown check.checkType

/-- Whether `main` ever starts a probe cycle for this check: both the
launch loop (lines 282-289) and the re-scheduling switch (lines 306-313)
run a probe only through the two non-default arms, so every outcome on
the channel comes from a check satisfying this. -/
def startsCycle (check : Check) : Bool :=
  match dispatchCheck check with
  | .reportUnknown _ => false
  | _ => true

/-- The number of trace outcomes belonging to endpoint slot `id`. -/
def countForId (trace : List (CheckResult × List (Option String))) (id : Nat) : Nat :=
  (trace.filter (fun e => e.1.check.id == id)).length

/-- The number of trace outcomes whose check is exactly `check`. -/
def countForCheck (trace : List (CheckResult × List (Option String)))
    (check : Check) : Nat :=
  (trace.filter (fun e => e.1.check == check)).length

/-- The trace entries delivered for endpoint slot `id`, oldest first. -/
def idEntries (trace : List (CheckResult × List (Option String))) (id : Nat) :
    List (CheckResult × List (Option String)) :=
  trace.filter (fun e => e.1.check.id == id)

/-- The durations delivered for slot `id`, most recent first. -/
def recentFirstDurations (trace : List (CheckResult × List (Option String)))
    (id : Nat) : List Int :=
  ((idEntries trace id).map (fun e => e.1.duration)).reverse

/-- The success flags delivered for slot `id`, most recent first. -/
def recentFirstStatuses (trace : List (CheckResult × List (Option String)))
    (id : Nat) : List Bool :=
  ((idEntries trace id).map (fun e => e.1.status)).reverse

/-- `recordStat` folded over a list of outcomes, oldest first: the
per-endpoint restriction of the collector's stat updates. -/
def foldStats (st : CheckResultStat) : List CheckResult → CheckResultStat
  | [] => st
  | r :: rest => foldStats (recordStat st r.duration r.status) rest

/-- A sample HTTP endpoint used by concrete witnesses. -/
def sampleHttpCheck : Check :=
  { name := "web", checkType := "http", dest := "http://a.example", repeatInterval := 1000, id := 0 }

/-- A second sample HTTP endpoint (slot 1) used by concrete witnesses. -/
def sampleHttpCheck1 : Check :=
  { name := "api", checkType := "http", dest := "http://b.example", repeatInterval := 1000, id := 1 }

/-- A sample successful outcome for slot 0. -/
def sampleOutcome0 : CheckResult :=
  { check := sampleHttpCheck, status := true, runAt := 0, duration := 3, execCount := 0 }

/-- A sample failed outcome for slot 0. -/
def sampleOutcome0f : CheckResult :=
  { check := sampleHttpCheck, status := false, runAt := 1, duration := 9, execCount := 0 }

/-- A sample successful outcome for slot 1. -/
def sampleOutcome1 : CheckResult :=
  { check := sampleHttpCheck1, status := true, runAt := 0, duration := 4, execCount := 0 }

/-- A sample delivery trace: three outcomes for slot 0 interleaved with
one for slot 1, every render pass writing its rows without error. -/
def sampleTrace : List (CheckResult × List (Option String)) :=
  [(sampleOutcome0, [none, none]), (sampleOutcome1, [none, none]),
   (sampleOutcome0f, [none, none]), (sampleOutcome0, [none, none])]

/-- Endpoint `id`'s rolling stats after `main` has collected `trace`
starting from the startup state with `n` endpoints. -/
def statsAt (n : Nat) (trace : List (CheckResult × List (Option String)))
    (id : Nat) : CheckResultStat :=
  (processTrace (initialState n) trace).checkResultStats.getD id emptyStat

/-- Endpoint `id`'s stored last result after `main` has collected
`trace` starting from the startup state with `n` endpoints. -/
def resultAt (n : Nat) (trace : List (CheckResult × List (Option String)))
    (id : Nat) : CheckResult :=
  (processTrace (initialState n) trace).checkResults.getD id defaultCheckResult

/-- A trace whose first delivery triggers a render pass that fails on
its row write, used by concrete witnesses. -/
def renderFailTrace : List (CheckResult × List (Option String)) :=
  [(sampleOutcome0, [some "boom"]), (sampleOutcome0f, [none])]

/-- The first observation of running `renderFailTrace` from startup. -/
def renderFailEntry0 : CollectorState × Bool × Option String :=
  (runTrace (initialState 1) renderFailTrace).getD 0 (initialState 1, false, none)

/-- The second observation of running `renderFailTrace` from startup. -/
def renderFailEntry1 : CollectorState × Bool × Option String :=
  (runTrace (initialState 1) renderFailTrace).getD 1 (initialState 1, false, none)

/-- A configured endpoint with an unrecognized probe kind, used by
concrete witnesses. -/
def unknownCheck : Check :=
  { name := "svc", checkType := "tcp", dest := "10.0.0.1", repeatInterval := 5, id := 2 }

/-! ## Helper lemmas -/

/-- The accumulating `for` loop of `averageDuration` computes the sum. -/
theorem foldl_add_eq_sum (l : List Int) : ∀ a : Int, l.foldl (· + ·) a = a + l.sum := by
  induction l with
  | nil => intro a; simp
  | cons x xs ih => intro a; simp [ih, add_assoc]

/-- `averageDuration` on a non-empty list is the truncating division of
the sum by the length. -/
theorem averageDuration_eq_tdiv (l : List Int) (h : l ≠ []) :
    averageDuration l = Int.tdiv l.sum (Int.ofNat l.length) := by
  unfold averageDuration
  rw [if_neg (by simpa using h), foldl_add_eq_sum, zero_add]

/-- Sum of a replicated integer. -/
theorem sum_replicate_int (n : Nat) (d : Int) :
    (List.replicate n d).sum = (n : Int) * d := by
  induction n with
  | zero => simp
  | succ m ih => simp [List.replicate_succ, ih, add_mul, one_mul, add_comm]

/-- `getD` after `set` at the written index. -/
theorem getD_set_self {α : Type} (l : List α) (i : Nat) (a d : α)
    (h : i < l.length) : (l.set i a).getD i d = a := by
  simp [List.getD_eq_getElem?_getD, List.getElem?_set_self h]

/-- `getD` after `set` at a different index. -/
theorem getD_set_other {α : Type} (l : List α) (i j : Nat) (a d : α)
    (h : i ≠ j) : (l.set i a).getD j d = l.getD j d := by
  simp [List.getD_eq_getElem?_getD, List.getElem?_set_ne h]

/-- `getD` into a replicated list. -/
theorem getD_replicate_of_lt {α : Type} (n i : Nat) (x d : α) (h : i < n) :
    (List.replicate n x).getD i d = x := by
  simp [List.getD_eq_getElem?_getD, List.getElem?_replicate_of_lt h]

/-- Taking a positive number of elements keeps the head. -/
theorem head?_take_of_pos {α : Type} (l : List α) (n : Nat) (h : 0 < n) :
    (l.take n).head? = l.head? := by
  cases l with
  | nil => simp
  | cons x xs =>
      cases n with
      | zero => omega
      | succ m => simp

/-- The 10-window update of `recordStat` is "cons, then take 10". -/
theorem recordStat_last10 (st : CheckResultStat) (d : Int) (b : Bool) :
    (recordStat st d b).last10Durations = (d :: st.last10Durations).take 10 := by
  by_cases h : (d :: st.last10Durations).length > 10
  · have h2 : 10 < st.last10Durations.length + 1 := by simpa using h
    simp [recordStat, prependSlice, limitSlice, asDurations, h2]
  · simp [recordStat, prependSlice, limitSlice, asDurations, h,
      List.take_of_length_le (Nat.le_of_not_lt h)]

/-- The 100-window update of `recordStat` is "cons, then take 100". -/
theorem recordStat_last100 (st : CheckResultStat) (d : Int) (b : Bool) :
    (recordStat st d b).last100Durations = (d :: st.last100Durations).take 100 := by
  by_cases h : (d :: st.last100Durations).length > 100
  · have h2 : 100 < st.last100Durations.length + 1 := by simpa using h
    simp [recordStat, prependSlice, limitSlice, asDurations, h2]
  · simp [recordStat, prependSlice, limitSlice, asDurations, h,
      List.take_of_length_le (Nat.le_of_not_lt h)]

/-- The 50-window update of `recordStat` is "cons, then take 50". -/
theorem recordStat_last50 (st : CheckResultStat) (d : Int) (b : Bool) :
    (recordStat st d b).last50Statuses = (b :: st.last50Statuses).take 50 := by
  by_cases h : (b :: st.last50Statuses).length > 50
  · have h2 : 50 < st.last50Statuses.length + 1 := by simpa using h
    simp [recordStat, prependSlice, limitSlice, asBools, h2]
  · simp [recordStat, prependSlice, limitSlice, asBools, h,
      List.take_of_length_le (Nat.le_of_not_lt h)]

/-- Generic rolling-window invariant: if a stat field updates by "cons
the projected value, then take `cap`", then folding over a list of
outcomes leaves the field equal to the reversed projected history capped
at `cap`. -/
theorem foldStats_window {α : Type} (cap : Nat)
    (get : CheckResultStat → List α) (proj : CheckResult → α)
    (hstep : ∀ st r, get (recordStat st r.duration r.status) = (proj r :: get st).take cap) :
    ∀ (entries : List CheckResult) (st : CheckResultStat) (X : List α),
      get st = X.take cap →
      get (foldStats st entries) = ((entries.map proj).reverse ++ X).take cap := by
  intro entries
  induction entries with
  | nil =>
      intro st X h
      simpa [foldStats] using h
  | cons r rest ih =>
      intro st X h
      have h2 : get (recordStat st r.duration r.status) = (proj r :: X).take cap := by
        rw [hstep, h]
        cases cap with
        | zero => simp
        | succ c => simp [List.take_succ_cons, List.take_take, Nat.min_eq_left (Nat.le_succ c)]
      rw [foldStats, ih _ _ h2]
      simp [List.append_assoc]

/-- The collector's stat update (main.go lines 297-299) viewed as one
array write. -/
theorem collectStep_fst_checkResultStats (s : CollectorState) (cR : CheckResult)
    (ro : List (Option String)) :
    (collectStep s cR ro).1.checkResultStats =
      s.checkResultStats.set cR.check.id
        (recordStat (s.checkResultStats.getD cR.check.id emptyStat) cR.duration cR.status) := by
  by_cases h : s.drawLock = false <;> simp [collectStep, h]

/-- The collector's result-slot update (main.go lines 294-295) viewed as
one array write. -/
theorem collectStep_fst_checkResults (s : CollectorState) (cR : CheckResult)
    (ro : List (Option String)) :
    (collectStep s cR ro).1.checkResults =
      s.checkResults.set cR.check.id
        { cR with execCount := (s.checkResults.getD cR.check.id defaultCheckResult).execCount + 1 } := by
  by_cases h : s.drawLock = false <;> simp [collectStep, h]

/-- A collector step preserves the length of the stats array. -/
theorem collectStep_statsLength (s : CollectorState) (cR : CheckResult)
    (ro : List (Option String)) :
    (collectStep s cR ro).1.checkResultStats.length = s.checkResultStats.length := by
  rw [collectStep_fst_checkResultStats]; simp

/-- A collector step preserves the length of the results array. -/
theorem collectStep_resultsLength (s : CollectorState) (cR : CheckResult)
    (ro : List (Option String)) :
    (collectStep s cR ro).1.checkResults.length = s.checkResults.length := by
  rw [collectStep_fst_checkResults]; simp

/-- Endpoint locality of the stat store: slot `id` after processing a
trace is `recordStat` folded over exactly the outcomes delivered for
slot `id`, oldest first. -/
theorem processTrace_stats (trace : List (CheckResult × List (Option String))) :
    ∀ (s : CollectorState) (id : Nat), id < s.checkResultStats.length →
      (processTrace s trace).checkResultStats.getD id emptyStat =
        foldStats (s.checkResultStats.getD id emptyStat)
          ((idEntries trace id).map (fun e => e.1)) := by
  induction trace with
  | nil =>
      intro s id h
      simp [processTrace, idEntries, foldStats]
  | cons e rest ih =>
      intro s id h
      have hlen : id < (collectStep s e.1 e.2).1.checkResultStats.length := by
        rw [collectStep_statsLength]; exact h
      by_cases heq : e.1.check.id = id
      · have hfilter : idEntries (e :: rest) id = e :: idEntries rest id := by
          simp [idEntries, List.filter_cons, heq]
        rw [processTrace, ih _ id hlen, hfilter, List.map_cons, foldStats]
        congr 1
        rw [collectStep_fst_checkResultStats, heq,
          getD_set_self _ _ _ _ h]
      · have hfilter : idEntries (e :: rest) id = idEntries rest id := by
          simp [idEntries, List.filter_cons, heq]
        rw [processTrace, ih _ id hlen, hfilter]
        congr 1
        rw [collectStep_fst_checkResultStats]
        exact getD_set_other _ _ _ _ _ heq

/-- Projection of the counter out of the updated outcome literal. -/
theorem execCount_mk (cR : CheckResult) (k : Nat) :
    ({ cR with execCount := k } : CheckResult).execCount = k := rfl

/-- The execution counter at slot `id` grows by exactly the number of
outcomes delivered for slot `id`. -/
theorem processTrace_execCount (trace : List (CheckResult × List (Option String))) :
    ∀ (s : CollectorState) (id : Nat), id < s.checkResults.length →
      (∀ e ∈ trace, e.1.check.id < s.checkResults.length) →
      ((processTrace s trace).checkResults.getD id defaultCheckResult).execCount =
        (s.checkResults.getD id defaultCheckResult).execCount + countForId trace id := by
  induction trace with
  | nil =>
      intro s id h _
      simp [processTrace, countForId]
  | cons e rest ih =>
      intro s id h hrange
      have hlen : id < (collectStep s e.1 e.2).1.checkResults.length := by
        rw [collectStep_resultsLength]; exact h
      have hrange' : ∀ x ∈ rest, x.1.check.id < (collectStep s e.1 e.2).1.checkResults.length := by
        intro x hx
        rw [collectStep_resultsLength]
        exact hrange x (by simp [hx])
      by_cases heq : e.1.check.id = id
      · have hcount : countForId (e :: rest) id = countForId rest id + 1 := by
          simp [countForId, List.filter_cons, heq]
        rw [processTrace, ih _ id hlen hrange', hcount,
          collectStep_fst_checkResults, heq, getD_set_self _ _ _ _ h,
          execCount_mk]
        omega
      · have hcount : countForId (e :: rest) id = countForId rest id := by
          simp [countForId, List.filter_cons, heq]
        rw [processTrace, ih _ id hlen hrange', hcount,
          collectStep_fst_checkResults, getD_set_other _ _ _ _ _ heq]

/-- Outcome counts add over trace concatenation. -/
theorem countForId_append (t1 t2 : List (CheckResult × List (Option String)))
    (id : Nat) : countForId (t1 ++ t2) id = countForId t1 id + countForId t2 id := by
  simp [countForId, List.filter_append]

/-- `displayResults` reports the first row error with the guard set. -/
theorem displayResults_first_failure (good : List (Option String)) (e : String)
    (rest : List (Option String)) (hgood : ∀ r ∈ good, r = none) :
    displayResults (good ++ some e :: rest) = (some e, true) := by
  induction good with
  | nil => rfl
  | cons g gs ih =>
      have hg : g = none := hgood g (by simp)
      subst hg
      simpa [displayResults] using ih (fun r hr => hgood r (by simp [hr]))

/-- If `displayResults` returns an error, it leaves the guard set. -/
theorem displayResults_error_locks (rows : List (Option String)) (e : String)
    (h : (displayResults rows).1 = some e) : displayResults rows = (some e, true) := by
  induction rows with
  | nil => simp [displayResults] at h
  | cons r rest ih =>
      cases r with
      | some x =>
          simp [displayResults] at h ⊢
          exact h
      | none =>
          simp only [displayResults] at h ⊢
          exact ih h

/-- With the guard already set, a collector step renders nothing and
leaves the guard set. -/
theorem collectStep_locked (s : CollectorState) (cR : CheckResult)
    (ro : List (Option String)) (h : s.drawLock = true) :
    (collectStep s cR ro).1.drawLock = true
    ∧ (collectStep s cR ro).2.1 = false
    ∧ (collectStep s cR ro).2.2 = none := by
  simp [collectStep, h]

/-- A step whose render pass returned an error leaves the guard set
(and did render). -/
theorem collectStep_render_error (s : CollectorState) (cR : CheckResult)
    (ro : List (Option String)) (e : String)
    (h : (collectStep s cR ro).2.2 = some e) :
    (collectStep s cR ro).1.drawLock = true ∧ (collectStep s cR ro).2.1 = true := by
  by_cases hl : s.drawLock = false
  · have herr : (displayResults ro).1 = some e := by
      simpa [collectStep, hl] using h
    have hlock := displayResults_error_locks ro e herr
    constructor
    · simp [collectStep, hl, hlock]
    · simp [collectStep, hl]
  · exfalso
    have := (collectStep_locked s cR ro (by simpa using hl)).2.2
    rw [this] at h
    exact Option.noConfusion h

/-- With the guard set, no step of the remaining run ever renders, and
the guard stays set. -/
theorem runTrace_locked (trace : List (CheckResult × List (Option String))) :
    ∀ (s : CollectorState), s.drawLock = true →
      ∀ (j : Nat) (entry : CollectorState × Bool × Option String),
        (runTrace s trace).get? j = some entry →
        entry.2.1 = false ∧ entry.1.drawLock = true := by
  induction trace with
  | nil =>
      intro s _ j entry hj
      simp [runTrace] at hj
  | cons e rest ih =>
      intro s h j entry hj
      rw [runTrace] at hj
      cases j with
      | zero =>
          obtain ⟨h1, h2, _⟩ := collectStep_locked s e.1 e.2 h
          have : collectStep s e.1 e.2 = entry := by simpa using hj
          subst this
          exact ⟨h2, h1⟩
      | succ j' =>
          exact ih ((collectStep s e.1 e.2).1)
            ((collectStep_locked s e.1 e.2 h).1) j' entry (by simpa using hj)

/-- After a step whose render pass failed, no later step renders. -/
theorem runTrace_error_halts (trace : List (CheckResult × List (Option String))) :
    ∀ (s : CollectorState) (i : Nat) (entry : CollectorState × Bool × Option String)
      (e : String),
      (runTrace s trace).get? i = some entry →
      entry.2.2 = some e →
      entry.1.drawLock = true ∧
      ∀ (j : Nat) (entryJ : CollectorState × Bool × Option String),
        i < j → (runTrace s trace).get? j = some entryJ → entryJ.2.1 = false := by
  induction trace with
  | nil =>
      intro s i entry e hi
      simp [runTrace] at hi
  | cons t rest ih =>
      intro s i entry e hi herr
      rw [runTrace] at hi
      cases i with
      | zero =>
          have hstep : collectStep s t.1 t.2 = entry := by simpa using hi
          have hlock : entry.1.drawLock = true := by
            rw [← hstep]
            exact (collectStep_render_error s t.1 t.2 e (by rw [hstep]; exact herr)).1
          refine ⟨hlock, fun j entryJ hij hj => ?_⟩
          cases j with
          | zero => omega
          | succ j' =>
              have hj' : (runTrace (collectStep s t.1 t.2).1 rest).get? j' = some entryJ := by
                rw [runTrace] at hj
                simpa using hj
              have hlock' : (collectStep s t.1 t.2).1.drawLock = true := by
                rw [hstep]; exact hlock
              exact (runTrace_locked rest _ hlock' j' entryJ hj').1
      | succ i' =>
          have hi' : (runTrace (collectStep s t.1 t.2).1 rest).get? i' = some entry := by
            simpa using hi
          obtain ⟨hlock, hrest⟩ := ih ((collectStep s t.1 t.2).1) i' entry e hi' herr
          refine ⟨hlock, fun j entryJ hij hj => ?_⟩
          cases j with
          | zero => omega
          | succ j' =>
              have hj' : (runTrace (collectStep s t.1 t.2).1 rest).get? j' = some entryJ := by
                rw [runTrace] at hj
                simpa using hj
              exact hrest j' entryJ (by omega) hj'

/-! ## Claim theorems -/

/-- C4: for every HTTP probe execution, the outcome's success flag is
true iff the GET completed without transport error with status exactly
200 (in particular a 404 yields failure), and its duration is the
wall-clock elapsed time of the whole request. -/
theorem http_success_iff_200 (check : Check) (result : Except String Int)
    (runAt elapsed : Int) :
    ((runHttpCheck check result runAt elapsed).status = true ↔ result = .ok 200)
    ∧ (runHttpCheck check result runAt elapsed).duration = elapsed
    ∧ (runHttpCheck check (.ok 404) runAt elapsed).status = false := by
  refine ⟨?_, ?_, ?_⟩
  · cases result with
    | error e => simp [runHttpCheck]
    | ok code =>
        by_cases h : code = 200
        · subst h; simp [runHttpCheck]
        · simp [runHttpCheck, h]
  · cases result with
    | error e => simp [runHttpCheck]
    | ok code => by_cases h : code = 200 <;> simp [runHttpCheck, h]
  · have h : (404 : Int) ≠ 200 := by decide
    simp [runHttpCheck, h]

/-- C5 counterexample: `averageDuration [1ns, 2ns]` is 1ns, which is not
the arithmetic mean 3/2 ns, so "in general returns the arithmetic mean"
fails as stated. -/
theorem averageOf_exact_mean_cex :
    averageDuration [1, 2] = 1
    ∧ ¬(((averageDuration [1, 2] : Int) : ℚ) = ((1 : ℚ) + 2) / 2) := by
  have h : averageDuration [1, 2] = 1 := by decide
  refine ⟨h, ?_⟩
  rw [h]; norm_num

/-- C5 (amended): `averageDuration` returns the zero duration for an
empty window (not an error), `d` for the singleton `[d]`, `d` for any
window of `n` equal durations `d`, and in general the truncating integer
division of the window's sum by its length. -/
theorem averageOf_spec_amended :
    averageDuration [] = 0
    ∧ (∀ d : Int, averageDuration [d] = d)
    ∧ (∀ (n : Nat) (d : Int), 0 < n → averageDuration (List.replicate n d) = d)
    ∧ (∀ l : List Int, l ≠ [] →
        averageDuration l = Int.tdiv l.sum (Int.ofNat l.length)) := by
  refine ⟨by decide, fun d => ?_, fun n d hn => ?_, fun l h => averageDuration_eq_tdiv l h⟩
  · rw [averageDuration_eq_tdiv [d] (by simp)]
    simp [Int.tdiv_one]
  · rw [averageDuration_eq_tdiv _ (by simp [List.replicate, Nat.pos_iff_ne_zero.mp hn]),
      sum_replicate_int, List.length_replicate]
    exact Int.mul_tdiv_cancel_left d (by exact_mod_cast Nat.pos_iff_ne_zero.mp hn)

/-- C5 witness: the amended claim applied at `n = 3` equal durations 7
and at the concrete window `[2, 4]`. -/
theorem averageOf_spec_amended_witness :
    0 < 3 ∧ averageDuration (List.replicate 3 (7 : Int)) = 7
    ∧ ([2, 4] : List Int) ≠ []
    ∧ averageDuration [2, 4] = Int.tdiv ([2, 4] : List Int).sum (Int.ofNat ([2, 4] : List Int).length) :=
  ⟨by decide, averageOf_spec_amended.2.2.1 3 7 (by decide), by decide,
    averageOf_spec_amended.2.2.2 [2, 4] (by decide)⟩

/-- C9: for every non-empty window, the computed average is the
truncating integer division of the sum by the count (toward zero), and
in particular the average of `[1ns, 2ns]` is 1ns. -/
theorem average_truncating_division :
    (∀ l : List Int, l ≠ [] →
        averageDuration l = Int.tdiv l.sum (Int.ofNat l.length))
    ∧ averageDuration [1, 2] = 1 :=
  ⟨fun l h => averageDuration_eq_tdiv l h, by decide⟩

/-- C9 witness: the truncating-division characterization applied at the
concrete window `[1, 2]`. -/
theorem average_truncating_division_witness :
    ([1, 2] : List Int) ≠ []
    ∧ averageDuration [1, 2] = Int.tdiv ([1, 2] : List Int).sum (Int.ofNat ([1, 2] : List Int).length) :=
  ⟨by decide, average_truncating_division.1 [1, 2] (by decide)⟩

/-- C7: `formatDuration` renders durations under one second as integer
milliseconds (width 4, "ms" suffix) and durations of one second or more
as seconds with two decimal places (width 5, "s" suffix); in particular
950ms renders as " 950ms" and 1.5s as " 1.50s". -/
theorem format_duration_spec :
    (∀ d : Int, d < 1000000000 →
        formatDuration d = goPadLeft (toString (goMilliseconds d)) 4 ++ "ms")
    ∧ (∀ d : Int, 1000000000 ≤ d →
        formatDuration d = goFormatSeconds d ++ "s")
    ∧ formatDuration 950000000 = " 950ms"
    ∧ formatDuration 1500000000 = " 1.50s" := by
  refine ⟨fun d h => ?_, fun d h => ?_, by decide, by decide⟩
  · rw [formatDuration, if_pos h]
  · rw [formatDuration, if_neg (by omega)]

/-- C7 witness: the two rendering branches applied at 500ms and 2s. -/
theorem format_duration_spec_witness :
    (500000000 : Int) < 1000000000
    ∧ formatDuration 500000000 = goPadLeft (toString (goMilliseconds 500000000)) 4 ++ "ms"
    ∧ (1000000000 : Int) ≤ 2000000000
    ∧ formatDuration 2000000000 = goFormatSeconds 2000000000 ++ "s" :=
  ⟨by decide, format_duration_spec.1 500000000 (by decide), by decide,
    format_duration_spec.2.1 2000000000 (by decide)⟩

/-- C10: whenever the element's dynamic type does not match the slice's
element type (or the slice is neither a duration slice nor a bool
slice), `prependSlice` returns the original slice unchanged: the element
is silently dropped, with no error and no panic. -/
theorem prepend_slice_mismatch_noop (element : ElemVal) (slice : SliceVal)
    (h : elemMatchesSlice element slice = false) :
    prependSlice element slice = slice := by
  cases element <;> cases slice <;>
    first
    | rfl
    | simp_all [elemMatchesSlice, prependSlice]

/-- C10 witness: prepending a bool onto a duration slice is a no-op. -/
theorem prepend_slice_mismatch_noop_witness :
    elemMatchesSlice (.boolElem true) (.durations [3]) = false
    ∧ prependSlice (.boolElem true) (.durations [3]) = .durations [3] :=
  ⟨by decide, prepend_slice_mismatch_noop _ _ (by decide)⟩

/-- C1 counterexample: with a succeeding ping process (`cmdErr = none`),
output that fails RTT parsing (the empty output) and a non-zero
wall-clock elapsed time of 5ns, the outcome's duration is the zero
duration, not the claimed wall-clock fallback 5. -/
theorem icmp_parse_failure_fallback_cex :
    parsePingOutput "linux" "" = .err "RTT not found in output"
    ∧ runIcmpCheck "linux" defaultCheckResult.check none "" 0 5 =
        some { check := defaultCheckResult.check, status := false, runAt := 0,
               duration := 0, execCount := 0 }
    ∧ Option.map CheckResult.duration
        (runIcmpCheck "linux" defaultCheckResult.check none "" 0 5) ≠ some 5 :=
  ⟨by decide, by decide, by decide⟩

/-- C1 (amended): when the ping process succeeds but RTT parsing of its
output fails, the outcome has success = false and the zero duration
(lines 111-113 never assign `duration`); the wall-clock fallback applies
only when the ping process itself fails. -/
theorem icmp_parse_failure_zero_duration (goos : String) (check : Check)
    (output : String) (runAt elapsed : Int) (msg : String)
    (hparse : parsePingOutput goos output = .err msg) :
    runIcmpCheck goos check none output runAt elapsed =
      some { check := check, status := false, runAt := runAt,
             duration := 0, execCount := 0 }
    ∧ ∀ procErr : String,
        runIcmpCheck goos check (some procErr) output runAt elapsed =
          some { check := check, status := false, runAt := runAt,
                 duration := elapsed, execCount := 0 } := by
  constructor
  · simp [runIcmpCheck, hparse]
  · intro procErr
    simp [runIcmpCheck]

/-- C1 witness: the amended claim applied at the concrete failing parse
(empty ping output) with elapsed 7ns. -/
theorem icmp_parse_failure_zero_duration_witness :
    parsePingOutput "linux" "" = .err "RTT not found in output"
    ∧ runIcmpCheck "linux" defaultCheckResult.check none "" 0 7 =
        some { check := defaultCheckResult.check, status := false, runAt := 0,
               duration := 0, execCount := 0 } :=
  ⟨by decide,
    (icmp_parse_failure_zero_duration "linux" defaultCheckResult.check "" 0 7
      "RTT not found in output" (by decide)).1⟩

/-- C2: after any delivery trace, an endpoint's three rolling windows
hold exactly the most-recent-first history of its deliveries capped at
10, 100 and 50; hence each has length `min (N, cap)` after `N` recorded
outcomes for it, never exceeds its cap, and the most recently recorded
duration/flag sits at index 0. -/
theorem rolling_windows_spec (n : Nat)
    (trace : List (CheckResult × List (Option String))) (id : Nat) (hid : id < n) :
    (statsAt n trace id).last10Durations = (recentFirstDurations trace id).take 10
    ∧ (statsAt n trace id).last100Durations = (recentFirstDurations trace id).take 100
    ∧ (statsAt n trace id).last50Statuses = (recentFirstStatuses trace id).take 50
    ∧ (statsAt n trace id).last10Durations.length = min (countForId trace id) 10
    ∧ (statsAt n trace id).last100Durations.length = min (countForId trace id) 100
    ∧ (statsAt n trace id).last50Statuses.length = min (countForId trace id) 50
    ∧ ∀ last, (idEntries trace id).getLast? = some last →
        (statsAt n trace id).last10Durations.head? = some last.1.duration
        ∧ (statsAt n trace id).last100Durations.head? = some last.1.duration
        ∧ (statsAt n trace id).last50Statuses.head? = some last.1.status := by
  have hlen : id < (initialState n).checkResultStats.length := by
    simpa [initialState] using hid
  have hbase : (initialState n).checkResultStats.getD id emptyStat = emptyStat := by
    simp only [initialState]
    exact getD_replicate_of_lt n id emptyStat emptyStat hid
  have hfold : statsAt n trace id =
      foldStats emptyStat ((idEntries trace id).map (fun e => e.1)) := by
    rw [statsAt, processTrace_stats trace _ id hlen, hbase]
  have h10 : (statsAt n trace id).last10Durations = (recentFirstDurations trace id).take 10 := by
    rw [hfold,
      foldStats_window 10 (fun st => st.last10Durations) (fun r => r.duration)
        (fun st r => recordStat_last10 st r.duration r.status) _ emptyStat [] rfl]
    simp only [List.append_nil, List.map_map, recentFirstDurations]
    rfl
  have h100 : (statsAt n trace id).last100Durations = (recentFirstDurations trace id).take 100 := by
    rw [hfold,
      foldStats_window 100 (fun st => st.last100Durations) (fun r => r.duration)
        (fun st r => recordStat_last100 st r.duration r.status) _ emptyStat [] rfl]
    simp only [List.append_nil, List.map_map, recentFirstDurations]
    rfl
  have h50 : (statsAt n trace id).last50Statuses = (recentFirstStatuses trace id).take 50 := by
    rw [hfold,
      foldStats_window 50 (fun st => st.last50Statuses) (fun r => r.status)
        (fun st r => recordStat_last50 st r.duration r.status) _ emptyStat [] rfl]
    simp only [List.append_nil, List.map_map, recentFirstStatuses]
    rfl
  have hcd : (recentFirstDurations trace id).length = countForId trace id := by
    simp [recentFirstDurations, idEntries, countForId]
  have hcs : (recentFirstStatuses trace id).length = countForId trace id := by
    simp [recentFirstStatuses, idEntries, countForId]
  refine ⟨h10, h100, h50,
    by rw [h10, List.length_take, hcd, Nat.min_comm],
    by rw [h100, List.length_take, hcd, Nat.min_comm],
    by rw [h50, List.length_take, hcs, Nat.min_comm],
    fun last hlast => ?_⟩
  have hd : (recentFirstDurations trace id).head? = some last.1.duration := by
    rw [recentFirstDurations, List.head?_reverse, List.getLast?_map, hlast]
    rfl
  have hs : (recentFirstStatuses trace id).head? = some last.1.status := by
    rw [recentFirstStatuses, List.head?_reverse, List.getLast?_map, hlast]
    rfl
  exact ⟨by rw [h10, head?_take_of_pos _ _ (by omega)]; exact hd,
    by rw [h100, head?_take_of_pos _ _ (by omega)]; exact hd,
    by rw [h50, head?_take_of_pos _ _ (by omega)]; exact hs⟩

/-- C2 witness: the window characterization applied to a concrete
four-delivery trace over two endpoints, at slot 0. -/
theorem rolling_windows_spec_witness :
    0 < 2
    ∧ (statsAt 2 sampleTrace 0).last10Durations = (recentFirstDurations sampleTrace 0).take 10
    ∧ (statsAt 2 sampleTrace 0).last10Durations.length = min (countForId sampleTrace 0) 10
    ∧ (statsAt 2 sampleTrace 0).last50Statuses.head? = some sampleOutcome0.status :=
  ⟨by decide, (rolling_windows_spec 2 sampleTrace 0 (by decide)).1,
    (rolling_windows_spec 2 sampleTrace 0 (by decide)).2.2.2.1,
    ((rolling_windows_spec 2 sampleTrace 0 (by decide)).2.2.2.2.2.2
      (sampleOutcome0, [none, none]) (by decide)).2.2⟩

/-- C6: for every endpoint slot, after a delivery trace the stored
execution counter equals the number of outcomes delivered for that slot,
and it is monotonically non-decreasing along the trace. -/
theorem exec_count_spec (n : Nat) (trace : List (CheckResult × List (Option String)))
    (id : Nat) (hid : id < n)
    (hrange : ∀ e ∈ trace, e.1.check.id < n) :
    (resultAt n trace id).execCount = countForId trace id
    ∧ ∀ pre suf, trace = pre ++ suf →
        (resultAt n pre id).execCount ≤ (resultAt n trace id).execCount := by
  have hlen : id < (initialState n).checkResults.length := by
    simpa [initialState] using hid
  have hbase : ((initialState n).checkResults.getD id defaultCheckResult).execCount = 0 := by
    simp only [initialState]
    rw [getD_replicate_of_lt n id defaultCheckResult defaultCheckResult hid]
    rfl
  have hmain : ∀ t : List (CheckResult × List (Option String)),
      (∀ e ∈ t, e.1.check.id < n) → (resultAt n t id).execCount = countForId t id := by
    intro t ht
    rw [resultAt, processTrace_execCount t _ id hlen
      (by intro e he; simpa [initialState] using ht e he), hbase, Nat.zero_add]
  refine ⟨hmain trace hrange, fun pre suf heq => ?_⟩
  subst heq
  rw [hmain _ hrange, hmain pre (fun e he => hrange e (by simp [he])),
    countForId_append]
  omega

/-- C6 witness: the counter characterization applied to the concrete
sample trace and its two-delivery prefix. -/
theorem exec_count_spec_witness :
    0 < 2
    ∧ (resultAt 2 sampleTrace 0).execCount = countForId sampleTrace 0
    ∧ (resultAt 2 [(sampleOutcome0, [none, none]), (sampleOutcome1, [none, none])] 0).execCount
        ≤ (resultAt 2 sampleTrace 0).execCount :=
  ⟨by decide, (exec_count_spec 2 sampleTrace 0 (by decide) (by decide)).1,
    (exec_count_spec 2 sampleTrace 0 (by decide) (by decide)).2
      [(sampleOutcome0, [none, none]), (sampleOutcome1, [none, none])]
      [(sampleOutcome0f, [none, none]), (sampleOutcome0, [none, none])] rfl⟩

/-- C3: a failing render pass returns its first row-write error to the
caller with the render-guard flag left set, and after such a step no
later collector step ever triggers a render pass for the remainder of
the run (the guard is never cleared after a failed render). -/
theorem render_failure_halts_renders :
    (∀ (good : List (Option String)) (e : String) (rest : List (Option String)),
        (∀ r ∈ good, r = none) →
        displayResults (good ++ some e :: rest) = (some e, true))
    ∧ ∀ (s : CollectorState) (trace : List (CheckResult × List (Option String)))
        (i : Nat) (entry : CollectorState × Bool × Option String) (e : String),
        (runTrace s trace).get? i = some entry →
        entry.2.2 = some e →
        entry.1.drawLock = true ∧
        ∀ (j : Nat) (entryJ : CollectorState × Bool × Option String),
          i < j → (runTrace s trace).get? j = some entryJ → entryJ.2.1 = false :=
  ⟨displayResults_first_failure,
   fun s trace i entry e hi herr => runTrace_error_halts trace s i entry e hi herr⟩

/-- C3 witness: a concrete two-delivery run whose first render pass
fails on its row write; the guard stays set and the second step does not
render. -/
theorem render_failure_halts_renders_witness :
    (runTrace (initialState 1) renderFailTrace).get? 0 = some renderFailEntry0
    ∧ renderFailEntry0.2.2 = some "boom"
    ∧ renderFailEntry0.1.drawLock = true
    ∧ renderFailEntry1.2.1 = false
    ∧ displayResults ([] ++ some "boom" :: []) = (some "boom", true) :=
  ⟨by decide, by decide,
    (render_failure_halts_renders.2 (initialState 1) renderFailTrace 0
      renderFailEntry0 "boom" (by decide) (by decide)).1,
    (render_failure_halts_renders.2 (initialState 1) renderFailTrace 0
      renderFailEntry0 "boom" (by decide) (by decide)).2 1 renderFailEntry1
      (by decide) (by decide),
    render_failure_halts_renders.1 [] "boom" [] (by decide)⟩

/-- C8: a configured check whose probe kind is neither "http" nor "icmp"
makes the dispatch loop report it ("Unknown check type"), never starts
its probe cycle, and — since every delivered outcome originates from a
started cycle — zero outcomes are ever recorded for it. -/
theorem unknown_check_type_spec (check : Check)
    (h1 : check.checkType ≠ "http") (h2 : check.checkType ≠ "icmp") :
    dispatchCheck check = .reportUnknown check.checkType
    ∧ startsCycle check = false
    ∧ ∀ trace : List (CheckResult × List (Option String)),
        (∀ e ∈ trace, startsCycle e.1.check = true) →
        countForCheck trace check = 0 := by
  have hd : dispatchCheck check = .reportUnknown check.checkType := by
    simp [dispatchCheck, h1, h2]
  have hs : startsCycle check = false := by
    simp [startsCycle, hd]
  refine ⟨hd, hs, fun trace htrace => ?_⟩
  rw [countForCheck, List.length_eq_zero, List.filter_eq_nil_iff]
  intro e he hc
  have hce : e.1.check = check := by simpa using hc
  have ht := htrace e he
  rw [hce, hs] at ht
  exact Bool.noConfusion ht

/-- C8 witness: a concrete "tcp" check is reported and starts no cycle,
and the concrete sample trace (all of whose outcomes come from started
cycles) records zero outcomes for it. -/
theorem unknown_check_type_spec_witness :
    unknownCheck.checkType ≠ "http"
    ∧ unknownCheck.checkType ≠ "icmp"
    ∧ dispatchCheck unknownCheck = .reportUnknown unknownCheck.checkType
    ∧ startsCycle unknownCheck = false
    ∧ countForCheck sampleTrace unknownCheck = 0 :=
  ⟨by decide, by decide,
    (unknown_check_type_spec unknownCheck (by decide) (by decide)).1,
    (unknown_check_type_spec unknownCheck (by decide) (by decide)).2.1,
    (unknown_check_type_spec unknownCheck (by decide) (by decide)).2.2
      sampleTrace (by decide)⟩

end NetworkChecks
